import Mathlib

/-!
Verification of the Cal-PIT expression pipeline (src/function_utils.py,
src/visualization.py, src/ai_helper.py) against its natural-language
specification.  The Python code is shallowly embedded: sympy expressions
become the inductive type `SymExpr`, numpy float arrays become
`List (Option ℚ)` where `none` stands for NaN (a failed / undefined
pointwise evaluation), and Python exceptions become `Except` values.
-/

namespace CalPIT

/-- A sample value: `none` models numpy NaN (an undefined or failed
pointwise evaluation), `some q` a finite value.  The numeric model is
rational-exact: values that are not rational (transcendental function
values, irrational roots) are modelled as undefined. -/
abbrev Val := Option ℚ

/-- Model of a sympy expression tree over the single declared variable x
(src/function_utils.py builds expressions via sp.sympify with
locals containing only x).  `sym` is any other free symbol that sympify
creates for an unknown identifier; `ufunc` is an applied undefined
function; `integralOf` / `integralD` are unevaluated Integral objects
(what sp.integrate returns when it finds no antiderivative); `derivOf`
is an unevaluated Derivative object. -/
inductive SymExpr where
  | const : ℚ → SymExpr
  | var : SymExpr
  | sym : String → SymExpr
  | add : SymExpr → SymExpr → SymExpr
  | sub : SymExpr → SymExpr → SymExpr
  | mul : SymExpr → SymExpr → SymExpr
  | div : SymExpr → SymExpr → SymExpr
  | pow : SymExpr → SymExpr → SymExpr
  | neg : SymExpr → SymExpr
  | sin : SymExpr → SymExpr
  | cos : SymExpr → SymExpr
  | tan : SymExpr → SymExpr
  | exp : SymExpr → SymExpr
  | log : SymExpr → SymExpr
  | sqrt : SymExpr → SymExpr
  | abs : SymExpr → SymExpr
  | ufunc : String → SymExpr → SymExpr
  | integralOf : SymExpr → SymExpr
  | integralD : SymExpr → ℚ → ℚ → SymExpr
  | derivOf : SymExpr → SymExpr
deriving DecidableEq, Repr

/-- Model of sympy.diff with respect to x (one application).  Rules follow
sympy's elementary differentiation; unevaluated objects differentiate to
unevaluated Derivative objects, and the derivative of an unevaluated
Integral with respect to its own variable is the integrand. -/
def diff : SymExpr → SymExpr
  | .const _ => .const 0
  | .var => .const 1
  | .sym _ => .const 0
  | .add a b => .add (diff a) (diff b)
  | .sub a b => .sub (diff a) (diff b)
  | .mul a b => .add (.mul (diff a) b) (.mul a (diff b))
  | .div a b => .div (.sub (.mul (diff a) b) (.mul a (diff b))) (.pow b (.const 2))
  | .pow a (.const q) => .mul (.mul (.const q) (.pow a (.const (q - 1)))) (diff a)
  | .pow a b =>
      .mul (.pow a b) (.add (.mul (diff b) (.log a)) (.div (.mul b (diff a)) a))
  | .neg a => .neg (diff a)
  | .sin a => .mul (.cos a) (diff a)
  | .cos a => .neg (.mul (.sin a) (diff a))
  | .tan a => .mul (.add (.const 1) (.pow (.tan a) (.const 2))) (diff a)
  | .exp a => .mul (.exp a) (diff a)
  | .log a => .div (diff a) a
  | .sqrt a => .div (diff a) (.mul (.const 2) (.sqrt a))
  | .abs a => .mul (.div a (.abs a)) (diff a)
  | .ufunc n a => .derivOf (.ufunc n a)
  | .integralOf e => e
  | .integralD _ _ _ => .const 0
  | .derivOf e => .derivOf (.derivOf e)

/-- Elementary antiderivative table: the fragment of sympy.integrate
(with respect to x) needed here.  `none` means sympy's algorithms find
no elementary closed form in this fragment. -/
def integrateRules : SymExpr → Option SymExpr
  | .const c => some (.mul (.const c) .var)
  | .var => some (.div (.pow .var (.const 2)) (.const 2))
  | .pow .var (.const q) =>
      if q = -1 then some (.log .var)
      else some (.div (.pow .var (.const (q + 1))) (.const (q + 1)))
  | .add a b => do
      let fa ← integrateRules a
      let fb ← integrateRules b
      pure (.add fa fb)
  | .sub a b => do
      let fa ← integrateRules a
      let fb ← integrateRules b
      pure (.sub fa fb)
  | .neg a => do pure (.neg (← integrateRules a))
  | .mul (.const c) e => do pure (.mul (.const c) (← integrateRules e))
  | .sin .var => some (.neg (.cos .var))
  | .cos .var => some (.sin .var)
  | .exp .var => some (.exp .var)
  | _ => none

/-- Model of sympy.integrate(expr, x) (indefinite): when no antiderivative
is found, sympy returns the unevaluated Integral object rather than
raising — modelled by the `integralOf` constructor. -/
def integrate_indef (e : SymExpr) : SymExpr :=
  match integrateRules e with
  | some f => f
  | none => .integralOf e

/-- Substitute the variable x by a constant, used for definite integrals. -/
def substConst (c : ℚ) : SymExpr → SymExpr
  | .const q => .const q
  | .var => .const c
  | .sym s => .sym s
  | .add a b => .add (substConst c a) (substConst c b)
  | .sub a b => .sub (substConst c a) (substConst c b)
  | .mul a b => .mul (substConst c a) (substConst c b)
  | .div a b => .div (substConst c a) (substConst c b)
  | .pow a b => .pow (substConst c a) (substConst c b)
  | .neg a => .neg (substConst c a)
  | .sin a => .sin (substConst c a)
  | .cos a => .cos (substConst c a)
  | .tan a => .tan (substConst c a)
  | .exp a => .exp (substConst c a)
  | .log a => .log (substConst c a)
  | .sqrt a => .sqrt (substConst c a)
  | .abs a => .abs (substConst c a)
  | .ufunc n a => .ufunc n (substConst c a)
  | .integralOf e => .integralOf e
  | .integralD e l u => .integralD e l u
  | .derivOf e => .derivOf e

/-- Model of sympy.integrate(expr, (x, l, u)) (definite): evaluate the
antiderivative at the bounds when one exists, otherwise return the
unevaluated bounded Integral object. -/
def integrate_def (e : SymExpr) (l u : ℚ) : SymExpr :=
  match integrateRules e with
  | some f => .sub (substConst u f) (substConst l f)
  | none => .integralD e l u

/-- Rational-exact power: integer exponents are evaluated (with 0 to a
negative power undefined, as numpy float division by zero at this spot
is caught and surfaces as NaN downstream); non-integer exponents give
irrational values in general and are modelled as undefined. -/
def ratPow (u v : ℚ) : Option ℚ :=
  if v.den = 1 then
    if u = 0 ∧ v.num < 0 then none else some (u ^ v.num)
  else none

/-- Rational-exact square root: defined at perfect squares of
nonnegative rationals; negative arguments give numpy NaN. -/
def ratSqrt (u : ℚ) : Option ℚ :=
  if u < 0 then none
  else
    let n := Nat.sqrt u.num.toNat
    let d := Nat.sqrt u.den
    if n * n = u.num.toNat ∧ d * d = u.den then some ((n : ℚ) / d) else none

/-- Model of pointwise numeric evaluation of a lambdified expression
(sp.lambdify with the numpy module, src/function_utils.py lines 41-52).
`none` models NaN / a failed evaluation: division by zero, domain errors,
free symbols other than x (NameError at call time), unevaluated Integral
or Derivative objects (lambdify output raises when called), and values
outside the rational-exact fragment (transcendental function values). -/
def evalExpr : SymExpr → ℚ → Option ℚ
  | .const c, _ => some c
  | .var, x => some x
  | .sym _, _ => none
  | .add a b, x => do pure ((← evalExpr a x) + (← evalExpr b x))
  | .sub a b, x => do pure ((← evalExpr a x) - (← evalExpr b x))
  | .mul a b, x => do pure ((← evalExpr a x) * (← evalExpr b x))
  | .div a b, x => do
      let u ← evalExpr a x
      let v ← evalExpr b x
      if v = 0 then none else pure (u / v)
  | .pow a b, x => do ratPow (← evalExpr a x) (← evalExpr b x)
  | .neg a, x => do pure (-(← evalExpr a x))
  | .sin a, x => do
      let u ← evalExpr a x
      if u = 0 then pure 0 else none
  | .cos a, x => do
      let u ← evalExpr a x
      if u = 0 then pure 1 else none
  | .tan a, x => do
      let u ← evalExpr a x
      if u = 0 then pure 0 else none
  | .exp a, x => do
      let u ← evalExpr a x
      if u = 0 then pure 1 else none
  | .log a, x => do
      let u ← evalExpr a x
      if u ≤ 0 then none else if u = 1 then pure 0 else none
  | .sqrt a, x => do ratSqrt (← evalExpr a x)
  | .abs a, x => do pure |(← evalExpr a x)|
  | .ufunc _ _, _ => none
  | .integralOf _, _ => none
  | .integralD _ _ _, _ => none
  | .derivOf _, _ => none

/-- Model of a numpy-style numeric callable, as produced by sp.lambdify.
`vec` is the whole-array call `func(x_range)` (`none` models the call
raising an exception); `pt` is the scalar call `func(x)` used by the
fallback loop (`Except.error` models the call raising, e.g. a
ZeroDivisionError on Python scalars). -/
structure NumFunc where
  vec : List ℚ → Option (List Val)
  pt : ℚ → Except Unit Val

/-- Translation of function_to_callable (src/function_utils.py lines
41-52), composed with the numpy evaluation model: the lambdified numpy
callable does not raise on arrays (division by zero, domain errors give
NaN/warnings elementwise), so the vectorized call succeeds with the
elementwise results, and the scalar call returns the pointwise value. -/
def function_to_callable (expr : SymExpr) : NumFunc where
  vec := fun xs => some (xs.map (evalExpr expr))
  pt := fun x => .ok (evalExpr expr x)

/-- Translation of evaluate_function (src/function_utils.py lines
123-147) restricted to array inputs (x_range an ndarray, modelled as a
list): first attempt the whole-array call; if it raises, evaluate
point by point, substituting NaN (`none`) at each index whose scalar
call raises. -/
def evaluate_function (func : NumFunc) (x_range : List ℚ) : List Val :=
  match func.vec x_range with
  | some res => res
  | none =>
      x_range.map (fun x =>
        match func.pt x with
        | .ok v => v
        | .error _ => none)

/-- Model of np.linspace(a, b, n): n evenly spaced points from a to b
inclusive (exact rational arithmetic in place of float arithmetic). -/
def linspace (a b : ℚ) (n : ℕ) : List ℚ :=
  if n = 0 then []
  else if n = 1 then [a]
  else (List.range n).map (fun i : ℕ => a + (i : ℚ) * (b - a) / ((n : ℚ) - 1))

/-- Elementwise subtraction on sample values with numpy NaN semantics:
any operation involving NaN yields NaN. -/
def subVal : Val → Val → Val
  | some a, some b => some (a - b)
  | _, _ => none

/-- Translation of the integral normalization in generate_plot_data
(src/visualization.py lines 54-56): if not every sample is NaN, subtract
the sample at index 0 from every sample (numpy broadcasting of
integ_vals - integ_vals[0], with NaN propagation). -/
def normalize_integral (iv : List Val) : List Val :=
  if iv.all (fun v => v.isNone) then iv
  else iv.map (fun v => subVal v (iv.headD none))

/-- The tuple returned by generate_plot_data (src/visualization.py line
58): x values, function samples, optional derivative samples, optional
integral samples. -/
structure PlotBundle where
  x_vals : List ℚ
  y_vals : List Val
  deriv_vals : Option (List Val)
  integ_vals : Option (List Val)
deriving DecidableEq, Repr

/-- Error raised by a symbolic-engine call (sympy can raise, e.g.
NotImplementedError from integrate, for expressions outside its
algorithms). -/
inductive EngineError where
  | notImplemented
  | valueError
deriving DecidableEq, Repr

/-- The symbolic-engine entry points called by function_utils.py:
sp.diff, indefinite sp.integrate, and definite sp.integrate.  Each call
may raise, modelled by the `Except` channel. -/
structure Engine where
  diffE : SymExpr → Except EngineError SymExpr
  integrateE : SymExpr → Except EngineError SymExpr
  integrateDefE : SymExpr → ℚ → ℚ → Except EngineError SymExpr

/-- The sympy engine model over the closed-form fragment: no call
raises; integration falls back to the unevaluated Integral object. -/
def sympyEngine : Engine where
  diffE := fun e => .ok (diff e)
  integrateE := fun e => .ok (integrate_indef e)
  integrateDefE := fun e l u => .ok (integrate_def e l u)

/-- Iterated differentiation loop of compute_derivative: the body of
`for _ in range(order)` applying sp.diff each time, with an exception
from any application propagating. -/
def derivLoop (eng : Engine) : ℕ → SymExpr → Except EngineError SymExpr
  | 0, e => .ok e
  | n + 1, e =>
      match eng.diffE e with
      | .error err => .error err
      | .ok d => derivLoop eng n d

/-- Translation of compute_derivative (src/function_utils.py lines
54-69): applies sp.diff `order` times; Python's range(order) is empty
when order is zero or negative, so Int.toNat gives the iteration
count. -/
def compute_derivative (eng : Engine) (expr : SymExpr) (order : ℤ) :
    Except EngineError SymExpr :=
  derivLoop eng order.toNat expr

/-- Translation of compute_integral (src/function_utils.py lines
86-106): the definite branch runs only when both bounds are not None;
otherwise the indefinite integral is computed and any supplied single
bound is ignored. -/
def compute_integral (eng : Engine) (expr : SymExpr)
    (lower_bound upper_bound : Option ℚ) : Except EngineError SymExpr :=
  match lower_bound, upper_bound with
  | some l, some u => eng.integrateDefE expr l u
  | _, _ => eng.integrateE expr

/-- Translation of generate_plot_data (src/visualization.py lines
13-58).  The body contains no exception handler, so a raise from
compute_derivative or compute_integral propagates (the `Except`
result), discarding the already-computed function samples. -/
def generate_plot_data (eng : Engine) (expr : SymExpr) (x_min x_max : ℚ)
    (num_points : ℕ) (compute_deriv compute_integ : Bool)
    (deriv_order : ℤ) : Except EngineError PlotBundle :=
  let x_vals := linspace x_min x_max num_points
  let func := function_to_callable expr
  let y_vals := evaluate_function func x_vals
  let derivStep : Except EngineError (Option (List Val)) :=
    if compute_deriv then
      match compute_derivative eng expr deriv_order with
      | .error err => .error err
      | .ok de => .ok (some (evaluate_function (function_to_callable de) x_vals))
    else .ok none
  match derivStep with
  | .error err => .error err
  | .ok deriv_vals =>
      if compute_integ then
        match compute_integral eng expr none none with
        | .error err => .error err
        | .ok ie =>
            let iv := evaluate_function (function_to_callable ie) x_vals
            .ok ⟨x_vals, y_vals, deriv_vals, some (normalize_integral iv)⟩
      else .ok ⟨x_vals, y_vals, deriv_vals, none⟩

/-- Word character in the sense of the regex word boundary used by
re.sub in parse_function (ASCII fragment of Python's word class). -/
def isWordChar (c : Char) : Bool := c.isAlpha || c.isDigit || c = '_'

/-- The boundary condition to the left of a match: start of string or a
non-word character.  (All substituted names consist of word characters,
so a word boundary there means exactly this.) -/
def boundaryBefore : Option Char → Bool
  | none => true
  | some c => !isWordChar c

/-- The boundary condition to the right of a match: end of string or a
non-word character. -/
def boundaryAfter : List Char → Bool
  | [] => true
  | c :: _ => !isWordChar c

/-- Whether the whole-word pattern matches at the current position,
given the previous character of the original string. -/
def matchTest (pat : List Char) (prev : Option Char) (s : List Char) : Bool :=
  pat.isPrefixOf s && boundaryBefore prev && boundaryAfter (s.drop pat.length)

/-- Left-to-right scan of re.sub with a word-bounded pattern: replace
each non-overlapping whole-word occurrence, continuing after the matched
region; the replacement text is not rescanned.  The fuel argument (one
unit per consumed character) makes the recursion structural; it is
always called with sufficient fuel. -/
def subWordF (pat rep : List Char) : ℕ → Option Char → List Char → List Char
  | 0, _, s => s
  | _ + 1, _, [] => []
  | fuel + 1, prev, c :: cs =>
      if matchTest pat prev (c :: cs) then
        rep ++ subWordF pat rep fuel pat.getLast? (cs.drop (pat.length - 1))
      else
        c :: subWordF pat rep fuel (some c) cs

/-- Model of re.sub of a word-bounded pattern over a string. -/
def subWord (pat rep s : List Char) : List Char :=
  subWordF pat rep (s.length + 1) none s

/-- Whether the string has a whole-word occurrence of the pattern, with
the given character preceding the scan start. -/
def hasOccB (pat : List Char) : Option Char → List Char → Bool
  | _, [] => false
  | prev, c :: cs => matchTest pat prev (c :: cs) || hasOccB pat (some c) cs

/-- Translation of the seven re.sub rewrites of parse_function
(src/function_utils.py lines 23-29), in source order. -/
def replace_math_functions (s : List Char) : List Char :=
  let s1 := subWord "sin".data "sp.sin".data s
  let s2 := subWord "cos".data "sp.cos".data s1
  let s3 := subWord "tan".data "sp.tan".data s2
  let s4 := subWord "log".data "sp.log".data s3
  let s5 := subWord "exp".data "sp.exp".data s4
  let s6 := subWord "sqrt".data "sp.sqrt".data s5
  subWord "abs".data "sp.Abs".data s6

/-- Translation of the caret normalization of parse_function
(src/function_utils.py line 32): str.replace turns every occurrence of
the caret into the two-character power operator. -/
def caretReplace : List Char → List Char
  | [] => []
  | c :: cs => if c = '^' then '*' :: '*' :: caretReplace cs else c :: caretReplace cs

/-- Model of str.strip: drop leading and trailing whitespace. -/
def trimWs (s : List Char) : List Char :=
  ((s.dropWhile Char.isWhitespace).reverse.dropWhile Char.isWhitespace).reverse

/-- Substring containment, Python's `in` on strings. -/
def containsSub (pat : List Char) : List Char → Bool
  | [] => pat.isEmpty
  | c :: cs => pat.isPrefixOf (c :: cs) || containsSub pat cs

/-- The regex match of x-star-star-digits at the current position:
returns the matched substring (maximal digit run) if it matches here. -/
def powTermAt : List Char → Option (List Char)
  | c1 :: c2 :: c3 :: rest =>
      if c1 = 'x' ∧ c2 = '*' ∧ c3 = '*' then
        match rest.takeWhile Char.isDigit with
        | [] => none
        | d :: ds => some (c1 :: c2 :: c3 :: d :: ds)
      else none
  | _ => none

/-- Model of re.findall of the x-star-star-digits pattern: all matched
substrings in order.  Matches of this pattern can only start at an x
that is not inside another match, so the character-by-character scan
yields the same non-overlapping matches as the regex engine. -/
def findAllPow : List Char → List (List Char)
  | [] => []
  | c :: cs =>
      match powTermAt (c :: cs) with
      | some t => t :: findAllPow cs
      | none => findAllPow cs

/-- Model of re.match of the x-star-star-digits pattern against an
extracted term (an anchored prefix match needing at least one digit). -/
def matchesPowPrefix : List Char → Bool
  | c1 :: c2 :: c3 :: d :: _ => c1 = 'x' && c2 = '*' && c3 = '*' && d.isDigit
  | _ => false

/-- Trig names probed by classify_function (src/ai_helper.py line 57). -/
def trigNames : List String := ["sin", "cos", "tan", "sec", "csc", "cot"]

/-- Translation of classify_function (src/ai_helper.py lines 54-72):
lowercase the text, then test the ordered lexical rules of the source. -/
def classify_function (expr_str : String) : String :=
  let t := expr_str.data.map Char.toLower
  if trigNames.any (fun p => containsSub p.data t) then "trigonometric"
  else if containsSub "exp".data t || containsSub "**".data t then
    if containsSub "x**".data t &&
        !(containsSub "exp(".data t || containsSub "e**".data t) then
      let terms := findAllPow t
      if !terms.isEmpty && terms.all matchesPowPrefix then "polynomial"
      else "exponential"
    else "exponential"
  else if containsSub "log".data t || containsSub "ln".data t then "logarithmic"
  else if containsSub "/".data t then "rational"
  else "polynomial"

/-- Whether the x-star-star occurrence at this position is followed by a
digit, tested at every position of the string. -/
def okPowHere : List Char → Bool
  | 'x' :: '*' :: '*' :: rest =>
      match rest with
      | d :: _ => d.isDigit
      | [] => false
  | _ => true

/-- Whether every power-of-the-variable term in the text has the form
x-star-star followed by a digit (the first character of a non-negative
integer literal); formalizes the claim's phrase "every
power-of-the-variable term has the form variable ** non-negative-
integer-literal". -/
def allPowOk : List Char → Bool
  | [] => true
  | c :: cs => okPowHere (c :: cs) && allPowOk cs

/-- The classifier described by claim C6: as the code, except that rule
(2) yields polynomial exactly when EVERY power-of-the-variable term is a
power by a non-negative integer literal. -/
def classify_claimC6 (expr_str : String) : String :=
  let t := expr_str.data.map Char.toLower
  if trigNames.any (fun p => containsSub p.data t) then "trigonometric"
  else if containsSub "exp".data t || containsSub "**".data t then
    if allPowOk t then "polynomial" else "exponential"
  else if containsSub "log".data t || containsSub "ln".data t then "logarithmic"
  else if containsSub "/".data t then "rational"
  else "polynomial"

/-- The amended classifier: rule (2) yields polynomial exactly when
neither the exp-call nor the e-power pattern occurs and at least one
substring of the form x-star-star-digit occurs (the source's every-term
check is vacuous, because the extracted terms match the extraction
pattern by construction). -/
def classify_amended (expr_str : String) : String :=
  let t := expr_str.data.map Char.toLower
  if trigNames.any (fun p => containsSub p.data t) then "trigonometric"
  else if containsSub "exp".data t || containsSub "**".data t then
    if !(containsSub "exp(".data t || containsSub "e**".data t) &&
        !(findAllPow t).isEmpty then "polynomial"
    else "exponential"
  else if containsSub "log".data t || containsSub "ln".data t then "logarithmic"
  else if containsSub "/".data t then "rational"
  else "polynomial"

/-- Tokens of the algebraic expression grammar accepted by the sympify
model. -/
inductive Tok where
  | num : ℕ → Tok
  | ident : String → Tok
  | plus
  | minus
  | star
  | slash
  | powOp
  | lparen
  | rparen
  | dot
  | comma
deriving DecidableEq, Repr

/-- Identifier start character (Python name grammar, ASCII fragment). -/
def isIdentStart (c : Char) : Bool := c.isAlpha || c = '_'

/-- Identifier continuation character. -/
def isIdentChar (c : Char) : Bool := c.isAlpha || c.isDigit || c = '_'

/-- Decimal digits to a natural number. -/
def digitsToNat (ds : List Char) : ℕ :=
  ds.foldl (fun acc d => acc * 10 + (d.toNat - 48)) 0

/-- Tokenizer of the sympify model (fuel makes the recursion structural;
each emitted token consumes at least one character).  Unknown characters
are a syntax error (`none`).  Numeric literals are modelled as natural
number literals. -/
def tokenizeF : ℕ → List Char → Option (List Tok)
  | 0, _ => none
  | _ + 1, [] => some []
  | fuel + 1, c :: cs =>
      if c.isWhitespace then tokenizeF fuel cs
      else if c.isDigit then do
        let ds := (c :: cs).takeWhile Char.isDigit
        let rest := (c :: cs).dropWhile Char.isDigit
        let ts ← tokenizeF fuel rest
        pure (Tok.num (digitsToNat ds) :: ts)
      else if isIdentStart c then do
        let nm := (c :: cs).takeWhile isIdentChar
        let rest := (c :: cs).dropWhile isIdentChar
        let ts ← tokenizeF fuel rest
        pure (Tok.ident (String.mk nm) :: ts)
      else if c = '*' then
        match cs with
        | '*' :: cs2 => do pure (Tok.powOp :: (← tokenizeF fuel cs2))
        | _ => do pure (Tok.star :: (← tokenizeF fuel cs))
      else if c = '+' then do pure (Tok.plus :: (← tokenizeF fuel cs))
      else if c = '-' then do pure (Tok.minus :: (← tokenizeF fuel cs))
      else if c = '/' then do pure (Tok.slash :: (← tokenizeF fuel cs))
      else if c = '(' then do pure (Tok.lparen :: (← tokenizeF fuel cs))
      else if c = ')' then do pure (Tok.rparen :: (← tokenizeF fuel cs))
      else if c = '.' then do pure (Tok.dot :: (← tokenizeF fuel cs))
      else if c = ',' then do pure (Tok.comma :: (← tokenizeF fuel cs))
      else none

/-- Tokenize with adequate fuel. -/
def tokenize (s : List Char) : Option (List Tok) := tokenizeF (s.length + 1) s

/-- Function-name resolution of the sympify namespace: known sympy
function names map to built-ins; an unknown name applied to arguments
becomes an applied undefined function (sympify does not reject it). -/
def applyFn (f : String) (a : SymExpr) : SymExpr :=
  if f = "sin" then .sin a
  else if f = "cos" then .cos a
  else if f = "tan" then .tan a
  else if f = "log" then .log a
  else if f = "ln" then .log a
  else if f = "exp" then .exp a
  else if f = "sqrt" then .sqrt a
  else if f = "Abs" then .abs a
  else .ufunc f a

mutual

/-- Additive level of the recursive-descent sympify model. -/
def pExpr : ℕ → List Tok → Option (SymExpr × List Tok)
  | 0, _ => none
  | n + 1, ts => do
      let (t, ts1) ← pTerm n ts
      pExprTail n t ts1

/-- Remaining additive operators at the current level. -/
def pExprTail : ℕ → SymExpr → List Tok → Option (SymExpr × List Tok)
  | 0, _, _ => none
  | n + 1, acc, Tok.plus :: ts => do
      let (t, ts1) ← pTerm n ts
      pExprTail n (.add acc t) ts1
  | n + 1, acc, Tok.minus :: ts => do
      let (t, ts1) ← pTerm n ts
      pExprTail n (.sub acc t) ts1
  | _ + 1, acc, ts => some (acc, ts)

/-- Multiplicative level. -/
def pTerm : ℕ → List Tok → Option (SymExpr × List Tok)
  | 0, _ => none
  | n + 1, ts => do
      let (f, ts1) ← pUnary n ts
      pTermTail n f ts1

/-- Remaining multiplicative operators at the current level. -/
def pTermTail : ℕ → SymExpr → List Tok → Option (SymExpr × List Tok)
  | 0, _, _ => none
  | n + 1, acc, Tok.star :: ts => do
      let (f, ts1) ← pUnary n ts
      pTermTail n (.mul acc f) ts1
  | n + 1, acc, Tok.slash :: ts => do
      let (f, ts1) ← pUnary n ts
      pTermTail n (.div acc f) ts1
  | _ + 1, acc, ts => some (acc, ts)

/-- Unary minus (binding looser than the power operator on its left,
as in Python). -/
def pUnary : ℕ → List Tok → Option (SymExpr × List Tok)
  | 0, _ => none
  | n + 1, Tok.minus :: ts => do
      let (u, ts1) ← pUnary n ts
      pure (.neg u, ts1)
  | n + 1, ts => pPow n ts

/-- Power level (right associative, exponent may be unary). -/
def pPow : ℕ → List Tok → Option (SymExpr × List Tok)
  | 0, _ => none
  | n + 1, ts => do
      let (a, ts1) ← pAtom n ts
      match ts1 with
      | Tok.powOp :: ts2 => do
          let (b, ts3) ← pUnary n ts2
          pure (SymExpr.pow a b, ts3)
      | _ => pure (a, ts1)

/-- Atoms: numeric literals, parenthesized expressions, function calls,
and bare identifiers.  The identifier x is the declared variable (passed
via the locals dictionary); ANY other bare identifier is silently turned
into a fresh Symbol, as sympify's auto-symbol behavior does.  An
identifier followed by a dot models Python attribute access on such a
Symbol, which raises — a parse failure. -/
def pAtom : ℕ → List Tok → Option (SymExpr × List Tok)
  | 0, _ => none
  | _ + 1, Tok.num k :: ts => some (SymExpr.const (k : ℚ), ts)
  | n + 1, Tok.ident f :: Tok.lparen :: ts => do
      let (arg, ts1) ← pExpr n ts
      match ts1 with
      | Tok.rparen :: ts2 => some (applyFn f arg, ts2)
      | _ => none
  | _ + 1, Tok.ident _ :: Tok.dot :: _ => none
  | _ + 1, Tok.ident s :: ts =>
      some ((if s = "x" then SymExpr.var else SymExpr.sym s), ts)
  | n + 1, Tok.lparen :: ts => do
      let (e, ts1) ← pExpr n ts
      match ts1 with
      | Tok.rparen :: ts2 => some (e, ts2)
      | _ => none
  | _, _ => none

end

/-- Model of sp.sympify on the normalized text with locals binding only
x: tokenize, parse with generous fuel, and require all input consumed.
Unknown identifiers become Symbols rather than errors. -/
def sympifyModel (s : List Char) : Option SymExpr := do
  let ts ← tokenize s
  let (e, rest) ← pExpr (8 * (ts.length + 1)) ts
  if rest.isEmpty then pure e else none

/-- Translation of parse_function (src/function_utils.py lines 6-39):
strip the input, rewrite the whitelisted function names at word
boundaries, normalize the caret to the power operator, then sympify;
any parsing exception becomes the ValueError of the source (the
specification's ParseError). -/
def parse_function (function_str : String) : Except String SymExpr :=
  let s0 := trimWs function_str.data
  let s1 := replace_math_functions s0
  let s2 := caretReplace s1
  match sympifyModel s2 with
  | some e => .ok e
  | none => .error "Error parsing function"

/-- Pure iterated symbolic differentiation, the value computed by the
compute_derivative loop under the sympy engine model. -/
def iterDiff : ℕ → SymExpr → SymExpr
  | 0, e => e
  | n + 1, e => iterDiff n (diff e)

/-- The integral sample list of generate_plot_data before normalization:
the indefinite integral expression, lambdified and evaluated on the
grid. -/
def integSamples (expr : SymExpr) (xm xM : ℚ) (n : ℕ) : List Val :=
  evaluate_function (function_to_callable (integrate_indef expr)) (linspace xm xM n)

/-- An engine run in which sp.integrate raises (sympy's integrate can
raise, e.g. NotImplementedError, on expressions outside its algorithms)
while sp.diff behaves as usual. -/
def failEngine : Engine where
  diffE := fun e => .ok (diff e)
  integrateE := fun _ => .error .notImplemented
  integrateDefE := fun _ _ _ => .error .notImplemented

/-- A numeric callable whose whole-array call raises and whose scalar
call raises exactly at zero (a Python-scalar reciprocal, where division
by zero raises ZeroDivisionError). -/
def recipFunc : NumFunc where
  vec := fun _ => none
  pt := fun x => if x = 0 then .error () else .ok (some (1 / x))

/-- Whether an Except value is a success (the call did not raise). -/
def exceptIsOk {ε α : Type} : Except ε α → Bool
  | .ok _ => true
  | .error _ => false

/-- Decidable equality of call results, so concrete runs can be checked
by evaluation. -/
instance exceptDecEq {ε α : Type} [DecidableEq ε] [DecidableEq α] :
    DecidableEq (Except ε α)
  | .ok x, .ok y =>
      if h : x = y then .isTrue (by rw [h])
      else .isFalse (fun hc => h (Except.ok.inj hc))
  | .error x, .error y =>
      if h : x = y then .isTrue (by rw [h])
      else .isFalse (fun hc => h (Except.error.inj hc))
  | .ok _, .error _ => .isFalse (fun hc => Except.noConfusion hc)
  | .error _, .ok _ => .isFalse (fun hc => Except.noConfusion hc)

/-! ## Helper lemmas -/

/-- Under the sympy engine model the differentiation loop never raises
and computes the iterated derivative. -/
theorem derivLoop_sympy (n : ℕ) (e : SymExpr) :
    derivLoop sympyEngine n e = .ok (iterDiff n e) := by
  induction n generalizing e with
  | zero => rfl
  | succ n ih => simpa [derivLoop, sympyEngine, iterDiff] using ih (diff e)

/-- The sympy engine model's integration entry point never raises. -/
theorem sympyEngine_integrateE (e : SymExpr) :
    sympyEngine.integrateE e = .ok (integrate_indef e) := rfl

/-- Closed form of generate_plot_data under the sympy engine model with
the integral requested. -/
theorem generate_plot_data_sympy (expr : SymExpr) (xm xM : ℚ) (n : ℕ)
    (cd : Bool) (ord : ℤ) :
    generate_plot_data sympyEngine expr xm xM n cd true ord =
      .ok ⟨linspace xm xM n,
           evaluate_function (function_to_callable expr) (linspace xm xM n),
           if cd then
             some (evaluate_function (function_to_callable (iterDiff ord.toNat expr))
               (linspace xm xM n))
           else none,
           some (normalize_integral (integSamples expr xm xM n))⟩ := by
  cases cd <;>
    simp [generate_plot_data, compute_derivative, derivLoop_sympy,
      compute_integral, sympyEngine_integrateE, integSamples]

/-- Closed form of generate_plot_data under the sympy engine model with
the integral not requested. -/
theorem generate_plot_data_sympy_nointeg (expr : SymExpr) (xm xM : ℚ) (n : ℕ)
    (cd : Bool) (ord : ℤ) :
    generate_plot_data sympyEngine expr xm xM n cd false ord =
      .ok ⟨linspace xm xM n,
           evaluate_function (function_to_callable expr) (linspace xm xM n),
           if cd then
             some (evaluate_function (function_to_callable (iterDiff ord.toNat expr))
               (linspace xm xM n))
           else none,
           none⟩ := by
  cases cd <;>
    simp [generate_plot_data, compute_derivative, derivLoop_sympy,
      compute_integral]

/-- A degenerate range produces a constant grid. -/
theorem linspace_const (a : ℚ) (n : ℕ) : linspace a a n = List.replicate n a := by
  by_cases h0 : n = 0
  · subst h0; simp [linspace]
  by_cases h1 : n = 1
  · subst h1; simp [linspace]
  · simp only [linspace, h0, h1, if_false]
    have h2 : List.map (fun i : ℕ => a + (i : ℚ) * (a - a) / ((n : ℚ) - 1))
        (List.range n) = List.map (fun _ : ℕ => a) (List.range n) :=
      List.map_congr_left (fun i _ => by ring)
    rw [h2, List.map_const', List.length_range]

/-- Subtracting NaN gives NaN at every sample. -/
theorem subVal_none (v : Val) : subVal v none = none := by
  cases v <;> rfl

/-- When the sample at index 0 is finite, the normalized integral curve
starts with the exact value 0. -/
theorem normalize_integral_head_finite (iv : List Val) (q : ℚ)
    (h : iv.headD none = some q) :
    (normalize_integral iv).head? = some (some 0) := by
  cases iv with
  | nil => simp at h
  | cons v0 rest =>
      simp only [List.headD_cons] at h
      subst h
      simp [normalize_integral, subVal]

/-- When the sample at index 0 is NaN, every normalized sample is NaN:
either all samples were NaN already, or the broadcast subtraction of
NaN poisons the whole curve. -/
theorem normalize_integral_head_nan (iv : List Val)
    (h : iv.headD none = none) :
    ∀ v ∈ normalize_integral iv, v = none := by
  cases iv with
  | nil => simp [normalize_integral]
  | cons v0 rest =>
      simp only [List.headD_cons] at h
      subst h
      intro v hv
      unfold normalize_integral at hv
      split at hv
      · rename_i hall
        rw [List.all_eq_true] at hall
        have := hall v hv
        simpa [Option.isNone_iff_eq_none] using this
      · simp only [List.headD_cons, List.mem_map] at hv
        obtain ⟨w, _, rfl⟩ := hv
        exact subVal_none w

/-! ## Claim theorems -/

/-- C3: for every numeric callable and every array of sample points,
evaluate_function returns (it never raises): it first attempts the
whole-array vectorized call, returning its result when that call
succeeds; if the vectorized call raises, it evaluates point by point,
and each pointwise failure is replaced by NaN at that index while all
remaining points are still evaluated (the result keeps one sample per
input point). -/
theorem evaluate_function_vectorized_fallback (func : NumFunc) (xs : List ℚ) :
    (∀ ys, func.vec xs = some ys → evaluate_function func xs = ys)
    ∧ (func.vec xs = none →
        (evaluate_function func xs).length = xs.length
        ∧ ∀ (i : ℕ) (hi : i < xs.length),
            (evaluate_function func xs).get? i =
              some (match func.pt (xs.get ⟨i, hi⟩) with
                    | .ok v => v
                    | .error _ => none)) := by
  constructor
  · intro ys h
    unfold evaluate_function
    rw [h]
  · intro h
    unfold evaluate_function
    rw [h]
    refine ⟨List.length_map _ _, ?_⟩
    intro i hi
    rw [List.get?_map, List.get?_eq_get hi]
    rfl

/-- C3 witness: a callable whose array call raises and whose scalar
call raises at 0 still yields a full curve, with NaN exactly at the
failing point. -/
theorem evaluate_function_vectorized_fallback_witness :
    (evaluate_function recipFunc [-1, 0, 2]).get? 1 = some none
    ∧ (evaluate_function recipFunc [-1, 0, 2]).length = 3 := by
  have h := (evaluate_function_vectorized_fallback recipFunc [-1, 0, 2]).2 rfl
  exact ⟨(h.2 1 (by norm_num)).trans (by norm_num [recipFunc]), h.1.trans rfl⟩

/-- C9: compute_integral with exactly one bound supplied does not fail
and does not compute a definite or partial integral: it takes the
indefinite branch, ignoring the supplied bound, and returns exactly the
result of the call with no bounds at all (under the sympy model, the
indefinite integral expression). -/
theorem compute_integral_single_bound_ignored (eng : Engine) (e : SymExpr)
    (l u : ℚ) :
    compute_integral eng e (some l) none = eng.integrateE e
    ∧ compute_integral eng e none (some u) = eng.integrateE e
    ∧ compute_integral eng e none none = eng.integrateE e
    ∧ compute_integral sympyEngine e (some l) none = .ok (integrate_indef e) :=
  ⟨rfl, rfl, rfl, rfl⟩

/-- C10: compute_derivative with order 0, or any order below 1, does
not fail: the differentiation loop body runs zero times (Python's
range of a non-positive count is empty) and the input expression is
returned unchanged. -/
theorem compute_derivative_order_below_one (eng : Engine) (e : SymExpr)
    (order : ℤ) (h : order < 1) :
    compute_derivative eng e order = .ok e := by
  show derivLoop eng order.toNat e = .ok e
  rw [Int.toNat_of_nonpos (by omega)]
  rfl

/-- C10 witness: a negative order returns the expression unchanged. -/
theorem compute_derivative_order_below_one_witness :
    compute_derivative sympyEngine SymExpr.var (-3) = .ok SymExpr.var :=
  compute_derivative_order_below_one sympyEngine SymExpr.var (-3) (by norm_num)

/-- C5 counterexample: for an expression with no elementary
antiderivative, compute_integral does not raise any IntegrationError:
it returns, as a success value, the unevaluated Integral placeholder
that sp.integrate produces. -/
theorem compute_integral_no_closed_form_cex :
    compute_integral sympyEngine (SymExpr.pow SymExpr.var SymExpr.var) none none =
      .ok (SymExpr.integralOf (SymExpr.pow SymExpr.var SymExpr.var)) := rfl

/-- C5 amended: compute_integral performs no failure detection — for
every expression on which sympy's integrator finds no elementary
antiderivative, it silently returns the unevaluated Integral
placeholder as a success; callers cannot distinguish this from success
by an exception. -/
theorem compute_integral_no_closed_form_placeholder (e : SymExpr)
    (h : integrateRules e = none) :
    compute_integral sympyEngine e none none = .ok (SymExpr.integralOf e) := by
  show sympyEngine.integrateE e = _
  simp [sympyEngine, integrate_indef, h]

/-- C5 witness: the integral of an applied undefined function has no
rule, and the unevaluated placeholder is returned as a success. -/
theorem compute_integral_no_closed_form_placeholder_witness :
    compute_integral sympyEngine (SymExpr.ufunc "f" SymExpr.var) none none =
      .ok (SymExpr.integralOf (SymExpr.ufunc "f" SymExpr.var)) :=
  compute_integral_no_closed_form_placeholder (SymExpr.ufunc "f" SymExpr.var) rfl

/-- C2 counterexample: when the symbolic engine raises while producing
the integral expression, generate_plot_data does not return the
function curve: the whole call fails with the propagated error, so no
partial bundle is surfaced. -/
theorem generate_plot_data_engine_raise_cex :
    generate_plot_data failEngine SymExpr.var 0 1 3 false true 1 =
      .error EngineError.notImplemented := rfl

/-- C2 amended: generate_plot_data contains no exception handling: a
symbolic-engine failure while producing the integral expression (or the
derivative expression) propagates out of the call, failing the whole
bundle — the already-computed function SampleSet is discarded rather
than returned as a partial result. -/
theorem generate_plot_data_engine_failure_fatal :
    (∀ (eng : Engine) (expr : SymExpr) (xm xM : ℚ) (n : ℕ) (ord : ℤ)
        (err : EngineError),
      eng.integrateE expr = .error err →
      generate_plot_data eng expr xm xM n false true ord = .error err)
    ∧ (∀ (eng : Engine) (expr : SymExpr) (xm xM : ℚ) (n : ℕ) (ci : Bool)
        (err : EngineError),
      eng.diffE expr = .error err →
      generate_plot_data eng expr xm xM n true ci 1 = .error err) := by
  constructor
  · intro eng expr xm xM n ord err h
    simp [generate_plot_data, compute_integral, h]
  · intro eng expr xm xM n ci err h
    have hd : compute_derivative eng expr 1 = .error err := by
      simp [compute_derivative, derivLoop, h]
    simp [generate_plot_data, hd]

/-- C2 witness: a concrete engine raise on a concrete expression makes
the whole bundle fail. -/
theorem generate_plot_data_engine_failure_fatal_witness :
    generate_plot_data failEngine (SymExpr.const 2) 0 1 2 false true 1 =
      .error EngineError.notImplemented :=
  generate_plot_data_engine_failure_fatal.1 failEngine (SymExpr.const 2)
    0 1 2 1 EngineError.notImplemented rfl

/-- C1 counterexample: for the expression x to the power minus two over
the range 0 to 10, the integral curve is successfully produced and its
pre-shift samples contain finite values (at indices 1 and 2), yet the
returned integral SampleSet is all NaN: subtracting the NaN sample at
index 0 poisons every sample, so no finite sample — let alone the first
one — equals 0. -/
theorem generate_plot_data_integral_first_finite_cex :
    generate_plot_data sympyEngine (SymExpr.pow SymExpr.var (SymExpr.const (-2)))
        0 10 3 false true 1 =
      .ok ⟨[0, 5, 10], [none, some (1/25), some (1/100)], none,
           some [none, none, none]⟩
    ∧ integSamples (SymExpr.pow SymExpr.var (SymExpr.const (-2))) 0 10 3 =
        [none, some (-(1/5)), some (-(1/10))] := ⟨by with_unfolding_all rfl, by with_unfolding_all rfl⟩

/-- C1 amended: the integral SampleSet, when produced, is shifted by
subtracting the sample at index 0 (not the first finite sample): if the
sample at index 0 is finite the returned curve starts with exactly 0,
but if the sample at index 0 is NaN every returned sample is NaN, so
the first finite pre-shift sample is not anchored at 0. -/
theorem generate_plot_data_integral_shift_index_zero (expr : SymExpr)
    (xm xM : ℚ) (n : ℕ) (cd : Bool) (ord : ℤ) (b : PlotBundle)
    (h : generate_plot_data sympyEngine expr xm xM n cd true ord = .ok b) :
    b.integ_vals = some (normalize_integral (integSamples expr xm xM n))
    ∧ (∀ q : ℚ, (integSamples expr xm xM n).headD none = some q →
        (normalize_integral (integSamples expr xm xM n)).head? = some (some 0))
    ∧ ((integSamples expr xm xM n).headD none = none →
        ∀ v ∈ normalize_integral (integSamples expr xm xM n), v = none) := by
  refine ⟨?_, fun q hq => normalize_integral_head_finite _ q hq,
    fun hn => normalize_integral_head_nan _ hn⟩
  rw [generate_plot_data_sympy] at h
  injection h with h
  rw [← h]

/-- C1 witness: for the identity function on the range 0 to 1 the
integral curve starts at index 0 with a finite sample, and the
normalized curve starts with exactly 0. -/
theorem generate_plot_data_integral_shift_index_zero_witness :
    generate_plot_data sympyEngine SymExpr.var 0 1 2 false true 1 =
      .ok ⟨[0, 1], [some 0, some 1], none, some [some 0, some (1/2)]⟩
    ∧ (normalize_integral (integSamples SymExpr.var 0 1 2)).head? = some (some 0) := by
  refine ⟨by with_unfolding_all rfl, ?_⟩
  exact (generate_plot_data_integral_shift_index_zero SymExpr.var 0 1 2 false 1
    ⟨[0, 1], [some 0, some 1], none, some [some 0, some (1/2)]⟩ (by with_unfolding_all rfl)).2.1 0 (by with_unfolding_all rfl)

/-- C7 counterexample: generate_plot_data called with x_min equal to
x_max succeeds — no RangeError of any kind is raised — and silently
returns a degenerate bundle whose grid is the constant list. -/
theorem generate_plot_data_degenerate_range_cex :
    generate_plot_data sympyEngine SymExpr.var 1 1 3 true true 1 =
      .ok ⟨[1, 1, 1], [some 1, some 1, some 1],
           some [some 1, some 1, some 1], some [some 0, some 0, some 0]⟩ := by
  with_unfolding_all rfl

/-- C7 amended: generate_plot_data performs no validation of the
sampling range: with x_min equal to x_max it always succeeds and
returns a degenerate SampleSet whose x values are all equal to x_min;
enforcing or repairing the range is left entirely to the callers (both
GUI front ends repair x_min greater-or-equal x_max before calling). -/
theorem generate_plot_data_no_range_check (expr : SymExpr) (n : ℕ)
    (cd ci : Bool) (ord : ℤ) (a : ℚ) :
    exceptIsOk (generate_plot_data sympyEngine expr a a n cd ci ord) = true
    ∧ (∀ b : PlotBundle,
        generate_plot_data sympyEngine expr a a n cd ci ord = .ok b →
        b.x_vals = List.replicate n a) := by
  constructor
  · cases ci
    · rw [generate_plot_data_sympy_nointeg]; rfl
    · rw [generate_plot_data_sympy]; rfl
  · intro b hb
    cases ci with
    | false =>
        rw [generate_plot_data_sympy_nointeg] at hb
        injection hb with hb
        rw [← hb]
        exact linspace_const a n
    | true =>
        rw [generate_plot_data_sympy] at hb
        injection hb with hb
        rw [← hb]
        exact linspace_const a n

/-- C7 witness: a concrete degenerate call returns the constant grid. -/
theorem generate_plot_data_no_range_check_witness :
    generate_plot_data sympyEngine (SymExpr.const 5) 2 2 4 false false 1 =
      .ok ⟨[2, 2, 2, 2], [some 5, some 5, some 5, some 5], none, none⟩
    ∧ (⟨[2, 2, 2, 2], [some 5, some 5, some 5, some 5], none, none⟩ :
        PlotBundle).x_vals = List.replicate 4 2 := by
  refine ⟨by with_unfolding_all rfl, ?_⟩
  exact (generate_plot_data_no_range_check (SymExpr.const 5) 4 false false 1 2).2
    ⟨[2, 2, 2, 2], [some 5, some 5, some 5, some 5], none, none⟩
    (by with_unfolding_all rfl)

/-- C4 counterexample: parsing the text containing the foreign free
variable y succeeds — parse_function does not fail with a ParseError. -/
theorem parse_function_foreign_symbol_cex :
    exceptIsOk (parse_function "y + 1") = true := by
  with_unfolding_all rfl

/-- C4 amended: parse_function does not reject free variables other
than the declared x: sympify silently coerces an unknown identifier
into a fresh Symbol, so the text parses to the Expression y + 1
containing the foreign free symbol y. -/
theorem parse_function_foreign_symbol_coerced :
    parse_function "y + 1" =
      .ok (SymExpr.add (SymExpr.sym "y") (SymExpr.const 1)) := by
  with_unfolding_all rfl

/-- Every substring extracted by the findall model matches the anchored
pattern it was extracted with, so the source's all-terms check never
filters anything out. -/
theorem powTermAt_matches (l tm : List Char) (h : powTermAt l = some tm) :
    matchesPowPrefix tm = true := by
  match l with
  | [] => simp [powTermAt] at h
  | [c1] => simp [powTermAt] at h
  | [c1, c2] => simp [powTermAt] at h
  | c1 :: c2 :: c3 :: rest =>
      simp only [powTermAt] at h
      split_ifs at h with hc
      · obtain ⟨h1, h2, h3⟩ := hc
        subst h1; subst h2; subst h3
        cases htw : rest.takeWhile Char.isDigit with
        | nil => rw [htw] at h; simp at h
        | cons d ds =>
            rw [htw] at h
            have hd : d.isDigit = true :=
              List.mem_takeWhile_imp (htw ▸ List.mem_cons_self d ds)
            injection h with h
            subst h
            simp [matchesPowPrefix, hd]

/-- A successful extraction starts with the x-star-star prefix. -/
theorem powTermAt_isPrefix (l tm : List Char) (h : powTermAt l = some tm) :
    "x**".data.isPrefixOf l = true := by
  match l with
  | [] => simp [powTermAt] at h
  | [c1] => simp [powTermAt] at h
  | [c1, c2] => simp [powTermAt] at h
  | c1 :: c2 :: c3 :: rest =>
      simp only [powTermAt] at h
      split_ifs at h with hc
      · obtain ⟨h1, h2, h3⟩ := hc
        subst h1; subst h2; subst h3
        show (['x', '*', '*'] : List Char).isPrefixOf ('x' :: '*' :: '*' :: rest) = true
        simp [List.isPrefixOf]

/-- A non-empty extraction implies the substring test of the source. -/
theorem findAllPow_sub (t : List Char) (h : findAllPow t ≠ []) :
    containsSub "x**".data t = true := by
  induction t with
  | nil => simp [findAllPow] at h
  | cons c cs ih =>
      unfold findAllPow at h
      unfold containsSub
      cases hp : powTermAt (c :: cs) with
      | some tm => simp [powTermAt_isPrefix (c :: cs) tm hp]
      | none =>
          rw [hp] at h
          simp [ih h]

/-- The all-terms check of classify_function is vacuous. -/
theorem findAllPow_all (t : List Char) :
    (findAllPow t).all matchesPowPrefix = true := by
  induction t with
  | nil => rfl
  | cons c cs ih =>
      unfold findAllPow
      cases hp : powTermAt (c :: cs) with
      | some tm => simp [List.all_cons, powTermAt_matches (c :: cs) tm hp, ih]
      | none => simpa using ih

/-- C6 counterexample: on the text containing both a variable-power
with a non-literal exponent and one with an integer literal exponent,
classify_function returns polynomial, while the claimed rule — every
power-of-the-variable term must be a non-negative-integer-literal power
— demands exponential. -/
theorem classify_every_term_cex :
    classify_function "x**x + x**2" = "polynomial"
    ∧ classify_claimC6 "x**x + x**2" = "exponential" := by
  exact ⟨by with_unfolding_all rfl, by with_unfolding_all rfl⟩

/-- C6 amended: classify_function follows the claimed fixed precedence,
except in rule (2): polynomial is returned exactly when neither the
exp-call pattern nor the e-power pattern occurs and at least one
substring of the form x-star-star-digit occurs — an at-least-one test,
not the claimed every-term test (the source's all-terms check is
vacuous because the extracted terms match the extraction pattern by
construction). -/
theorem classify_function_matches_amended (s : String) :
    classify_function s = classify_amended s := by
  unfold classify_function classify_amended
  cases h1 : trigNames.any (fun p => containsSub p.data (s.data.map Char.toLower)) with
  | true => simp [h1]
  | false =>
      simp only [h1, Bool.false_eq_true, if_false]
      cases h2 : (containsSub "exp".data (s.data.map Char.toLower)
          || containsSub "**".data (s.data.map Char.toLower)) with
      | false => simp [h2]
      | true =>
          simp only [h2, if_true]
          cases h3 : (containsSub "exp(".data (s.data.map Char.toLower)
              || containsSub "e**".data (s.data.map Char.toLower)) with
          | true => simp [h3]
          | false =>
              cases h4 : (findAllPow (s.data.map Char.toLower)).isEmpty with
              | true =>
                  have h4e : findAllPow (s.data.map Char.toLower) = [] := by
                    simpa using h4
                  simp [h3, h4, h4e]
              | false =>
                  have h4n : findAllPow (s.data.map Char.toLower) ≠ [] := by
                    intro hh
                    rw [hh] at h4
                    simp at h4
                  simp [h3, h4, findAllPow_sub _ h4n, findAllPow_all]

/-- C8 lemma: the word-bounded substitution scan leaves any string
without a whole-word occurrence of the pattern unchanged, for any fuel. -/
theorem subWordF_no_occ (pat rep : List Char) :
    ∀ (s : List Char) (prev : Option Char) (fuel : ℕ),
      hasOccB pat prev s = false → subWordF pat rep fuel prev s = s := by
  intro s
  induction s with
  | nil =>
      intro prev fuel h
      cases fuel <;> rfl
  | cons c cs ih =>
      intro prev fuel h
      unfold hasOccB at h
      rw [Bool.or_eq_false_iff] at h
      obtain ⟨h1, h2⟩ := h
      cases fuel with
      | zero => rfl
      | succ n =>
          unfold subWordF
          rw [h1]
          simp only [if_false, Bool.false_eq_true]
          rw [ih (some c) n h2]

/-- C8: parse_function rewrites each whitelisted function name only at
whole-word boundaries — a string with no whole-word occurrence of a
pattern passes through the substitution unchanged, so a longer
identifier containing a whitelisted name as a substring is left
uncorrupted (witness the concrete sinh rewrite) — and the caret
normalization turns every caret into the two-star power operator (no
caret survives, each one contributes exactly two stars, strings without
a caret are untouched) before the text reaches the algebraic parser. -/
theorem parse_function_word_boundary_normalization :
    (∀ (pat rep s : List Char), hasOccB pat none s = false → subWord pat rep s = s)
    ∧ (∀ s : List Char, (caretReplace s).count '^' = 0)
    ∧ (∀ s : List Char, '^' ∉ s → caretReplace s = s)
    ∧ (∀ s : List Char,
        (caretReplace s).count '*' = s.count '*' + 2 * s.count '^')
    ∧ replace_math_functions "sin(x) + sinh(x)".data = "sp.sin(x) + sinh(x)".data
    ∧ caretReplace "x^2".data = "x**2".data := by
  refine ⟨?_, ?_, ?_, ?_, by with_unfolding_all rfl, by with_unfolding_all rfl⟩
  · intro pat rep s h
    exact subWordF_no_occ pat rep s none (s.length + 1) h
  · intro s
    induction s with
    | nil => rfl
    | cons c cs ih =>
        by_cases hc : c = '^'
        · subst hc
          simpa [caretReplace, List.count_cons] using ih
        · simp [caretReplace, hc, List.count_cons, ih]
  · intro s h
    induction s with
    | nil => rfl
    | cons c cs ih =>
        rw [List.mem_cons, not_or] at h
        obtain ⟨hc, hcs⟩ := h
        have hc2 : ¬c = '^' := fun hx => hc hx.symm
        simp [caretReplace, hc2, ih hcs]
  · intro s
    induction s with
    | nil => rfl
    | cons c cs ih =>
        by_cases hc : c = '^'
        · subst hc
          simp [caretReplace, List.count_cons, ih]
          ring
        · simp [caretReplace, hc, List.count_cons, ih]
          by_cases hs : c = '*'
          · simp [hs]
            ring
          · simp [hs]

/-- C8 witness: the name sinh, which contains the whitelisted sin as a
substring but has no whole-word occurrence of it, passes through the
substitution unchanged; a caret-free string passes through the caret
normalization unchanged. -/
theorem parse_function_word_boundary_normalization_witness :
    subWord "sin".data "sp.sin".data "sinh".data = "sinh".data
    ∧ caretReplace "a+b".data = "a+b".data := by
  exact ⟨parse_function_word_boundary_normalization.1 "sin".data "sp.sin".data
      "sinh".data (by with_unfolding_all rfl),
    parse_function_word_boundary_normalization.2.2.1 "a+b".data (by decide)⟩

end CalPIT
